import Mathlib

/-!
# NornWeave storage engine — verification of the storage contract

Shallow embedding of the `nornweave-storage` library: the domain model and
row mappers (`mappers.py`, `values.py`, `entities.py`), the repository
operations over an explicit table state (`repositories/document.py`,
`repositories/chunk.py`, with the table constraints of
`migrations/versions/001_initial_schema.py`), and the connection-pool
lifecycle (`pool.py`).

Numeric values are modelled as exact rationals.  The chunk mapper stores the
embedding as a `numpy` `float32` array, so the narrowing of a value to
`float32` is modelled explicitly (`f32round`, round to nearest, ties to even,
for values in the normal `float32` range); everything else in the mappers is
a pass-through.
-/

namespace Nornweave

/-! ## Model of `float32` narrowing (normal range) -/

/-- Round a rational to the nearest integer, ties to even. -/
def roundNearestEven (x : ℚ) : ℤ :=
  let f := ⌊x⌋
  let r := x - (f : ℚ)
  if r < 1 / 2 then f
  else if 1 / 2 < r then f + 1
  else if f % 2 = 0 then f else f + 1

/-- Fuel-based binary logarithm on naturals (structural recursion, so it
evaluates by reduction). -/
def natLog2Aux : ℕ → ℕ → ℕ
  | 0, _ => 0
  | fuel + 1, n => if 2 ≤ n then natLog2Aux fuel (n / 2) + 1 else 0

/-- `⌊log₂ n⌋` for positive `n` (and 0 at 0). -/
def natLog2 (n : ℕ) : ℕ := natLog2Aux n n

/-- `⌊log₂ q⌋` for a positive rational `q`. -/
def log2floorQ (q : ℚ) : ℤ :=
  let e : ℤ := (natLog2 q.num.toNat : ℤ) - (natLog2 q.den : ℤ)
  if q < (2 : ℚ) ^ e then e - 1 else e

/-- Narrowing of a rational to `float32` (24-bit significand, round to
nearest, ties to even), as performed by `np.array(values, dtype=np.float32)`
in `ChunkMapper.to_row`.  Models values in the normal `float32` range. -/
def f32round (q : ℚ) : ℚ :=
  if q = 0 then 0
  else
    let s : ℚ := if q < 0 then -1 else 1
    let x := |q|
    let e := log2floorQ x
    s * (roundNearestEven (x * (2 : ℚ) ^ ((23 : ℤ) - e)) : ℚ) * (2 : ℚ) ^ (e - 23)

/-! ## Domain model (`nornweave_core.models`) -/

/-- `EmbeddingVector` value object (`values.py`): a dense vector with its
declared dimensionality and producing model. -/
structure EmbeddingVector where
  values : List ℚ
  dimensions : ℤ
  model_name : String
deriving DecidableEq, Repr

/-- Pydantic validation failures relevant to the storage layer. -/
inductive ValidationError where
  | invalidDimensions (got : ℤ)
  | emptyModelName
  | dimensionMismatch (expected : ℤ) (got : ℕ)
  | emptyContent
  | negativePosition (got : ℤ)
  | nonPositiveTokenCount (got : ℤ)
deriving DecidableEq, Repr

/-- Validating constructor of `EmbeddingVector`: `dimensions` must be one of
the `Literal[384, 768, 1536]`, `model_name` non-empty (field validation),
then the `_check_dimensions` model validator requires
`len(values) == dimensions`. -/
def mkEmbeddingVector (values : List ℚ) (dimensions : ℤ) (model_name : String) :
    Except ValidationError EmbeddingVector :=
  if dimensions = 384 ∨ dimensions = 768 ∨ dimensions = 1536 then
    if model_name = "" then .error .emptyModelName
    else if (values.length : ℤ) = dimensions then .ok ⟨values, dimensions, model_name⟩
    else .error (.dimensionMismatch dimensions values.length)
  else .error (.invalidDimensions dimensions)

/-- The invariants a constructed `EmbeddingVector` satisfies. -/
def EmbeddingVector.Valid (e : EmbeddingVector) : Prop :=
  (e.dimensions = 384 ∨ e.dimensions = 768 ∨ e.dimensions = 1536)
    ∧ e.model_name ≠ "" ∧ (e.values.length : ℤ) = e.dimensions

instance (e : EmbeddingVector) : Decidable e.Valid := by
  unfold EmbeddingVector.Valid; infer_instance

/-- `Document` entity (`entities.py`).  Identifier newtypes collapse to plain
strings, timestamps and the open metadata map are carried opaquely. -/
structure Document where
  id : String
  domain_id : String
  source_path : String
  content : String
  content_hash : String
  metadata : List (String × String)
  ingested_at : ℤ
  source_updated_at : ℤ
deriving DecidableEq, Repr

/-- `Chunk` entity (`entities.py`). -/
structure Chunk where
  id : String
  document_id : String
  domain_id : String
  content : String
  embedding : EmbeddingVector
  position : ℤ
  token_count : ℤ
  metadata : List (String × String)
  created_at : ℤ
deriving DecidableEq, Repr

/-- Validating constructor of `Chunk`: `content` has `min_length=1`,
`position ≥ 0`, `token_count > 0`. -/
def mkChunk (id document_id domain_id content : String) (embedding : EmbeddingVector)
    (position token_count : ℤ) (metadata : List (String × String)) (created_at : ℤ) :
    Except ValidationError Chunk :=
  if content = "" then .error .emptyContent
  else if position < 0 then .error (.negativePosition position)
  else if token_count ≤ 0 then .error (.nonPositiveTokenCount token_count)
  else .ok ⟨id, document_id, domain_id, content, embedding, position, token_count,
    metadata, created_at⟩

/-- The invariants a constructed `Chunk` satisfies. -/
def Chunk.Valid (c : Chunk) : Prop :=
  c.content ≠ "" ∧ 0 ≤ c.position ∧ 0 < c.token_count ∧ c.embedding.Valid

instance (c : Chunk) : Decidable c.Valid := by
  unfold Chunk.Valid; infer_instance

/-! ## Rows and mappers (`mappers.py`) -/

/-- A row of the `documents` table. -/
structure DocumentRow where
  id : String
  domain_id : String
  source_path : String
  content : String
  content_hash : String
  metadata : List (String × String)
  ingested_at : ℤ
  source_updated_at : ℤ
deriving DecidableEq, Repr

/-- A row of the `chunks` table.  The `embedding` column holds the `float32`
values of the stored vector. -/
structure ChunkRow where
  id : String
  document_id : String
  domain_id : String
  content : String
  embedding : List ℚ
  embedding_dimensions : ℤ
  embedding_model_name : String
  position : ℤ
  token_count : ℤ
  metadata : List (String × String)
  created_at : ℤ
deriving DecidableEq, Repr

/-- `DocumentMapper.to_row`: a field-by-field flattening. -/
def DocumentMapper.to_row (doc : Document) : DocumentRow :=
  ⟨doc.id, doc.domain_id, doc.source_path, doc.content, doc.content_hash,
    doc.metadata, doc.ingested_at, doc.source_updated_at⟩

/-- `DocumentMapper.from_row`: field-by-field reconstruction (the `Document`
model has no validation constraints). -/
def DocumentMapper.from_row (row : DocumentRow) : Document :=
  ⟨row.id, row.domain_id, row.source_path, row.content, row.content_hash,
    row.metadata, row.ingested_at, row.source_updated_at⟩

/-- `ChunkMapper.to_row`: flattens the embedding into the values array
(narrowed to `float32` by `np.array(..., dtype=np.float32)`), the dimensions
column and the model-name column. -/
def ChunkMapper.to_row (chunk : Chunk) : ChunkRow :=
  ⟨chunk.id, chunk.document_id, chunk.domain_id, chunk.content,
    chunk.embedding.values.map f32round, chunk.embedding.dimensions,
    chunk.embedding.model_name, chunk.position, chunk.token_count,
    chunk.metadata, chunk.created_at⟩

/-- `ChunkMapper.from_row`: reconstructs the `EmbeddingVector` through its
validating constructor, then the `Chunk` through its validating
constructor. -/
def ChunkMapper.from_row (row : ChunkRow) : Except ValidationError Chunk :=
  match mkEmbeddingVector row.embedding row.embedding_dimensions row.embedding_model_name with
  | .error e => .error e
  | .ok embedding =>
    mkChunk row.id row.document_id row.domain_id row.content embedding
      row.position row.token_count row.metadata row.created_at

instance {ε α : Type _} [DecidableEq ε] [DecidableEq α] : DecidableEq (Except ε α) :=
  fun x y =>
  match x, y with
  | .ok a, .ok b => decidable_of_iff (a = b) ⟨fun h => h ▸ rfl, fun h => by injection h⟩
  | .error a, .error b => decidable_of_iff (a = b) ⟨fun h => h ▸ rfl, fun h => by injection h⟩
  | .ok _, .error _ => isFalse (fun h => Except.noConfusion h)
  | .error _, .ok _ => isFalse (fun h => Except.noConfusion h)

/-! ## Database state and PostgreSQL statement semantics

The store is PostgreSQL with the schema of `001_initial_schema.py`:
`documents(id PK, UNIQUE(domain_id, content_hash))` and
`chunks(id PK, document_id FK → documents ON DELETE CASCADE, ...)`. -/

/-- Driver-level (psycopg) errors raised by the store on a constraint
violation. -/
inductive PgError where
  | uniqueViolation
  | foreignKeyViolation
deriving DecidableEq, Repr

/-- The persisted state: the two tables, rows in the store's natural row
order (insertion order). -/
structure DB where
  documents : List DocumentRow
  chunks : List ChunkRow
deriving DecidableEq, Repr

/-- `INSERT INTO documents ...` under the schema's constraints: the primary
key `id` and `UNIQUE (domain_id, content_hash)` both raise a
`UniqueViolation`. -/
def pgInsertDocument (table : List DocumentRow) (row : DocumentRow) :
    Except PgError (List DocumentRow) :=
  if ∃ r ∈ table, r.id = row.id ∨
      (r.domain_id = row.domain_id ∧ r.content_hash = row.content_hash) then
    .error .uniqueViolation
  else .ok (table ++ [row])

/-- `INSERT INTO chunks ...` under the schema's constraints: primary key
`id`, and the foreign key on `document_id`. -/
def pgInsertChunk (db : DB) (row : ChunkRow) : Except PgError DB :=
  if ∃ c ∈ db.chunks, c.id = row.id then .error .uniqueViolation
  else if ∃ d ∈ db.documents, d.id = row.document_id then
    .ok { db with chunks := db.chunks ++ [row] }
  else .error .foreignKeyViolation

/-! ## Error taxonomy (`exceptions.py`) -/

/-- The storage error hierarchy raised by the repositories. -/
inductive StorageError where
  | documentNotFound (document_id : String)
  | chunkNotFound (chunk_id : String)
  | duplicateDocument (domain_id : String) (content_hash : String)
deriving DecidableEq, Repr

/-- Everything a repository operation can fail with: a `nornweave_storage`
exception, an uncaught driver error, or an uncaught pydantic validation
error raised while rebuilding a returned row. -/
inductive RepoFailure where
  | storage (e : StorageError)
  | pg (e : PgError)
  | validation (e : ValidationError)
deriving DecidableEq, Repr

/-! ## Document repository (`repositories/document.py`) -/

/-- `DocumentRepository.create`: inserts and returns the row rebuilt through
`from_row`.  It catches exactly `UniqueViolation` — whichever uniqueness
constraint fired — and re-raises it as `DuplicateDocumentError` carrying the
document's own `domain_id` and `content_hash`; any other driver error
propagates uncaught. -/
def DocumentRepository.create (db : DB) (document : Document) :
    Except RepoFailure (DB × Document) :=
  match pgInsertDocument db.documents (DocumentMapper.to_row document) with
  | .error .uniqueViolation =>
    .error (.storage (.duplicateDocument document.domain_id document.content_hash))
  | .error e => .error (.pg e)
  | .ok docs =>
    .ok ({ db with documents := docs },
      DocumentMapper.from_row (DocumentMapper.to_row document))

/-- `DocumentRepository.delete`: `DELETE FROM documents WHERE id = ...
RETURNING id`; no row returned means `DocumentNotFoundError`.  The schema's
`ON DELETE CASCADE` removes the document's chunks in the same statement. -/
def DocumentRepository.delete (db : DB) (document_id : String) :
    Except RepoFailure DB :=
  if ∃ r ∈ db.documents, r.id = document_id then
    .ok ⟨db.documents.filter (fun r => decide (r.id ≠ document_id)),
      db.chunks.filter (fun c => decide (c.document_id ≠ document_id))⟩
  else .error (.storage (.documentNotFound document_id))

/-! ## Chunk repository (`repositories/chunk.py`) -/

/-- `ORDER BY position ASC` on chunk rows. -/
def posLE (a b : ChunkRow) : Prop := a.position ≤ b.position

instance : DecidableRel posLE := fun a b => inferInstanceAs (Decidable (a.position ≤ b.position))

instance : IsTotal ChunkRow posLE := ⟨fun a b => Int.le_total a.position b.position⟩

instance : IsTrans ChunkRow posLE := ⟨fun _ _ _ => Int.le_trans⟩

/-- `ORDER BY embedding <=> query` on chunk rows: ascending cosine distance
to the query, for the store's distance function `dist`. -/
def distLE (dist : List ℚ → List ℚ → ℚ) (qs : List ℚ) (a b : ChunkRow) : Prop :=
  dist a.embedding qs ≤ dist b.embedding qs

instance (dist : List ℚ → List ℚ → ℚ) (qs : List ℚ) : DecidableRel (distLE dist qs) :=
  fun a b => inferInstanceAs (Decidable (dist a.embedding qs ≤ dist b.embedding qs))

instance (dist : List ℚ → List ℚ → ℚ) (qs : List ℚ) : IsTotal ChunkRow (distLE dist qs) :=
  ⟨fun a b => le_total (dist a.embedding qs) (dist b.embedding qs)⟩

instance (dist : List ℚ → List ℚ → ℚ) (qs : List ℚ) : IsTrans ChunkRow (distLE dist qs) :=
  ⟨fun _ _ _ => le_trans⟩

/-- The result-building loop of `search_similar`: each fetched row is rebuilt
through `ChunkMapper.from_row` and paired with its computed similarity
`1 - dist(row.embedding, query)`; a validation failure raised mid-loop
aborts the call. -/
def mapRows (dist : List ℚ → List ℚ → ℚ) (qs : List ℚ) :
    List ChunkRow → Except ValidationError (List (Chunk × ℚ))
  | [] => .ok []
  | r :: rs =>
    match ChunkMapper.from_row r, mapRows dist qs rs with
    | .error e, _ => .error e
    | .ok _, .error e => .error e
    | .ok c, .ok rest => .ok ((c, 1 - dist r.embedding qs) :: rest)

/-- The result-building loop of `get_by_document_id`. -/
def mapRowsChunks : List ChunkRow → Except ValidationError (List Chunk)
  | [] => .ok []
  | r :: rs =>
    match ChunkMapper.from_row r, mapRowsChunks rs with
    | .error e, _ => .error e
    | .ok _, .error e => .error e
    | .ok c, .ok rest => .ok (c :: rest)

/-- `ChunkRepository.get_by_document_id`: `SELECT * FROM chunks WHERE
document_id = ... ORDER BY position ASC`, each row rebuilt through the
mapper. -/
def ChunkRepository.get_by_document_id (db : DB) (document_id : String) :
    Except ValidationError (List Chunk) :=
  mapRowsChunks
    (List.insertionSort posLE
      (db.chunks.filter (fun r => decide (r.document_id = document_id))))

/-- `ChunkRepository.search_similar`: the query vector is sent to the store
as a `float32` array (`np.array(query_embedding, dtype=np.float32)`); the
statement keeps rows of the requested domain whose similarity
`1 - (embedding <=> query)` is at least `min_similarity`, orders them by
ascending distance, truncates to `top_k`, and each kept row is rebuilt and
paired with its similarity.  `dist` is the store's cosine-distance
operator `<=>`, kept abstract. -/
def ChunkRepository.search_similar (dist : List ℚ → List ℚ → ℚ) (db : DB)
    (domain_id : String) (query_embedding : List ℚ) (top_k : ℕ) (min_similarity : ℚ) :
    Except ValidationError (List (Chunk × ℚ)) :=
  mapRows dist (query_embedding.map f32round)
    ((List.insertionSort (distLE dist (query_embedding.map f32round))
        (db.chunks.filter
          (fun r => decide (r.domain_id = domain_id ∧
            min_similarity ≤ 1 - dist r.embedding (query_embedding.map f32round))))).take
      top_k)

/-- The insert loop of `ChunkRepository.bulk_create`: each chunk is mapped to
a row, inserted (`INSERT ... RETURNING *`), and the returned row rebuilt
through the mapper; driver and validation errors propagate uncaught. -/
def bulkLoop (db : DB) : List Chunk → Except RepoFailure (DB × List Chunk)
  | [] => .ok (db, [])
  | c :: rest =>
    match pgInsertChunk db (ChunkMapper.to_row c) with
    | .error e => .error (.pg e)
    | .ok db₁ =>
      match ChunkMapper.from_row (ChunkMapper.to_row c) with
      | .error e => .error (.validation e)
      | .ok inserted =>
        match bulkLoop db₁ rest with
        | .error e => .error e
        | .ok (dbf, outs) => .ok (dbf, inserted :: outs)

/-- `ChunkRepository.bulk_create`: an empty input returns the empty list
before touching the store; otherwise the per-chunk insert loop runs. -/
def ChunkRepository.bulk_create (db : DB) (chunks : List Chunk) :
    Except RepoFailure (DB × List Chunk) :=
  if chunks = [] then .ok (db, []) else bulkLoop db chunks

/-! ## Connection pool (`pool.py`, `config.py`) -/

/-- `DatabaseConfig` (`config.py`). -/
structure DatabaseConfig where
  host : String
  port : ℤ
  user : String
  password : String
  name : String
  min_pool_size : ℤ
  max_pool_size : ℤ
  pool_timeout : ℚ
deriving DecidableEq, Repr

/-- `ConnectionPool` state: its config, a counter modelling the identity of
successively created inner `AsyncConnectionPool` objects, and `_pool`
(`none` ↔ not open). -/
structure ConnectionPool where
  config : DatabaseConfig
  counter : ℕ
  pool : Option ℕ
deriving DecidableEq, Repr

/-- Failures of pool operations (`RuntimeError` for use while not open). -/
inductive PoolError where
  | notOpen
deriving DecidableEq, Repr

/-- `ConnectionPool.__init__`: `_pool = None`. -/
def ConnectionPool.init (config : DatabaseConfig) : ConnectionPool := ⟨config, 0, none⟩

/-- `ConnectionPool.open`: unconditionally creates a fresh inner pool and
assigns it to `_pool` — there is no already-open check, so it never
fails from the open state. -/
def ConnectionPool.openPool (p : ConnectionPool) : Except PoolError ConnectionPool :=
  .ok ⟨p.config, p.counter + 1, some p.counter⟩

/-- `ConnectionPool.close`: closes the inner pool if present and sets
`_pool = None`. -/
def ConnectionPool.closePool (p : ConnectionPool) : ConnectionPool :=
  ⟨p.config, p.counter, none⟩

/-- `ConnectionPool.connection`: raises the not-open `RuntimeError` when
`_pool is None`, otherwise checks a connection out of the inner pool. -/
def ConnectionPool.connection (p : ConnectionPool) : Except PoolError ℕ :=
  match p.pool with
  | none => .error .notOpen
  | some h => .ok h

/-- Well-formedness of a reachable pool state: any held inner pool was
created by an earlier `open()` call, so its identity is below the
counter. -/
def ConnectionPool.WF (p : ConnectionPool) : Prop :=
  ∀ h, p.pool = some h → h < p.counter

/-! ## Concrete sample data -/

/-- A zero vector of the smallest supported dimensionality. -/
def zeros384 : List ℚ := List.replicate 384 0

/-- A value in the normal `float64` range that is not representable in
`float32`: narrowing rounds it to `1 + 2⁻²³`. -/
def q0 : ℚ := 1 + 3 / 2 ^ 25

/-- A valid chunk whose first embedding value is not `float32`-representable. -/
def cexChunk : Chunk :=
  ⟨"chunk-1", "doc-1", "code", "text", ⟨q0 :: List.replicate 383 0, 384, "test-model"⟩,
    0, 5, [], 0⟩

/-- A sample valid embedding. -/
def sampleEmbedding : EmbeddingVector := ⟨zeros384, 384, "test-model"⟩

/-- A sample valid chunk in domain `code`. -/
def sampleChunk : Chunk := ⟨"c1", "doc-1", "code", "text", sampleEmbedding, 0, 5, [], 0⟩

/-- The stored row of `sampleChunk`. -/
def sampleRow : ChunkRow :=
  ⟨"c1", "doc-1", "code", "text", zeros384, 384, "test-model", 0, 5, [], 0⟩

/-- A sample distance function used to instantiate the abstract store
distance in witnesses. -/
def distSample (v w : List ℚ) : ℚ := if v = w then 0 else 1

/-- A stored document row. -/
def docRow1 : DocumentRow := ⟨"doc-1", "code", "src/main.py", "content", "h1", [], 0, 0⟩

/-- A stored document row used by the duplicate-condition counterexample. -/
def docRowA : DocumentRow := ⟨"doc-a", "d1", "p", "text", "h1", [], 0, 0⟩

/-- A document colliding with `docRowA` only on the primary key `id`. -/
def docB : Document := ⟨"doc-a", "d2", "p2", "text2", "h2", [], 0, 0⟩

/-- A database holding one document and one chunk. -/
def sampleDB : DB := ⟨[docRow1], [sampleRow]⟩

/-- Chunk rows of one document at positions 0, 1, 2. -/
def rowPos0 : ChunkRow := ⟨"k0", "doc-1", "code", "t0", zeros384, 384, "m", 0, 1, [], 0⟩

/-- Position-1 row. -/
def rowPos1 : ChunkRow := ⟨"k1", "doc-1", "code", "t1", zeros384, 384, "m", 1, 1, [], 0⟩

/-- Position-2 row. -/
def rowPos2 : ChunkRow := ⟨"k2", "doc-1", "code", "t2", zeros384, 384, "m", 2, 1, [], 0⟩

/-- The domain value of `rowPos0`. -/
def chunkPos0 : Chunk := ⟨"k0", "doc-1", "code", "t0", ⟨zeros384, 384, "m"⟩, 0, 1, [], 0⟩

/-- The domain value of `rowPos1`. -/
def chunkPos1 : Chunk := ⟨"k1", "doc-1", "code", "t1", ⟨zeros384, 384, "m"⟩, 1, 1, [], 0⟩

/-- The domain value of `rowPos2`. -/
def chunkPos2 : Chunk := ⟨"k2", "doc-1", "code", "t2", ⟨zeros384, 384, "m"⟩, 2, 1, [], 0⟩

/-- A database whose chunks were inserted in position order [1, 0, 2]. -/
def dbOutOfOrder : DB := ⟨[docRow1], [rowPos1, rowPos0, rowPos2]⟩

/-- Chunks to bulk-insert. -/
def bulkChunkA : Chunk := ⟨"b1", "doc-1", "code", "ta", sampleEmbedding, 0, 3, [], 0⟩

/-- Second chunk to bulk-insert. -/
def bulkChunkB : Chunk := ⟨"b2", "doc-1", "code", "tb", sampleEmbedding, 1, 4, [], 0⟩

/-- The dev-environment defaults of `DatabaseConfig`. -/
def defaultConfig : DatabaseConfig :=
  ⟨"localhost", 5432, "nornweave", "nornweave_dev", "nornweave", 2, 10, 30⟩

/-! ## Helper lemmas -/

/-- Inversion of the validating `EmbeddingVector` constructor. -/
theorem mkEmbeddingVector_ok {v : List ℚ} {d : ℤ} {m : String} {e : EmbeddingVector}
    (h : mkEmbeddingVector v d m = .ok e) : e = ⟨v, d, m⟩ := by
  unfold mkEmbeddingVector at h
  split_ifs at h <;> simp_all

/-- Inversion of the validating `Chunk` constructor. -/
theorem mkChunk_ok {i di dom ct : String} {e : EmbeddingVector} {pos tok : ℤ}
    {md : List (String × String)} {ca : ℤ} {c : Chunk}
    (h : mkChunk i di dom ct e pos tok md ca = .ok c) :
    c = ⟨i, di, dom, ct, e, pos, tok, md, ca⟩ := by
  unfold mkChunk at h
  split_ifs at h <;> simp_all

/-- Inversion of `ChunkMapper.from_row`: a successfully rebuilt chunk carries
exactly the row's fields. -/
theorem from_row_ok {row : ChunkRow} {c : Chunk}
    (h : ChunkMapper.from_row row = .ok c) :
    c = ⟨row.id, row.document_id, row.domain_id, row.content,
      ⟨row.embedding, row.embedding_dimensions, row.embedding_model_name⟩,
      row.position, row.token_count, row.metadata, row.created_at⟩ := by
  unfold ChunkMapper.from_row at h
  cases hE : mkEmbeddingVector row.embedding row.embedding_dimensions
      row.embedding_model_name with
  | error e => rw [hE] at h; cases h
  | ok emb =>
    rw [hE] at h
    rw [mkEmbeddingVector_ok hE] at h
    exact mkChunk_ok h

/-- Successful inserts of `pgInsertChunk` append the row. -/
theorem pgInsertChunk_ok {db db' : DB} {row : ChunkRow}
    (h : pgInsertChunk db row = .ok db') :
    db' = { db with chunks := db.chunks ++ [row] } := by
  unfold pgInsertChunk at h
  split_ifs at h <;> simp_all

/-- Elements of the right list of a `Forall₂` are related to some element of
the left list. -/
theorem forall₂_mem_right {α β : Type _} {R : α → β → Prop} {l₁ : List α} {l₂ : List β}
    (h : List.Forall₂ R l₁ l₂) : ∀ b ∈ l₂, ∃ a ∈ l₁, R a b := by
  induction h with
  | nil => intro b hb; cases hb
  | cons hR hF ih =>
    intro b hb
    rcases List.mem_cons.mp hb with rfl | hb
    · exact ⟨_, List.mem_cons_self _ _, hR⟩
    · obtain ⟨a, ha, hr⟩ := ih b hb
      exact ⟨a, List.mem_cons_of_mem _ ha, hr⟩

/-- Transfer a `Pairwise` relation across a `Forall₂` correspondence. -/
theorem pairwise_of_forall₂ {α β : Type _} {R : α → β → Prop} {P : α → α → Prop}
    {Q : β → β → Prop}
    (himp : ∀ a b a' b', R a a' → R b b' → P a b → Q a' b') :
    ∀ {l₁ : List α} {l₂ : List β}, List.Forall₂ R l₁ l₂ → l₁.Pairwise P → l₂.Pairwise Q := by
  intro l₁ l₂ hF
  induction hF with
  | nil => intro _; exact List.Pairwise.nil
  | cons hR hF ih =>
    intro hp
    cases hp with
    | cons ha hp =>
      refine List.Pairwise.cons ?_ (ih hp)
      intro b' hb'
      obtain ⟨b, hb, hrb⟩ := forall₂_mem_right hF b' hb'
      exact himp _ _ _ _ hR hrb (ha b hb)

/-- The result-building loop of `search_similar` relates rows to results
positionally. -/
theorem mapRows_ok_forall₂ {dist : List ℚ → List ℚ → ℚ} {qs : List ℚ}
    {rows : List ChunkRow} {out : List (Chunk × ℚ)}
    (h : mapRows dist qs rows = .ok out) :
    List.Forall₂
      (fun r p => ChunkMapper.from_row r = .ok p.1 ∧ p.2 = 1 - dist r.embedding qs)
      rows out := by
  induction rows generalizing out with
  | nil =>
    simp only [mapRows] at h
    cases h
    exact List.Forall₂.nil
  | cons r rs ih =>
    cases hfr : ChunkMapper.from_row r with
    | error e => simp only [mapRows, hfr] at h; cases h
    | ok c =>
      cases hrec : mapRows dist qs rs with
      | error e => simp only [mapRows, hfr, hrec] at h; cases h
      | ok rest =>
        simp only [mapRows, hfr, hrec] at h
        cases h
        exact List.Forall₂.cons ⟨hfr, rfl⟩ (ih hrec)

/-- The result-building loop of `get_by_document_id` relates rows to chunks
positionally. -/
theorem mapRowsChunks_ok_forall₂ {rows : List ChunkRow} {out : List Chunk}
    (h : mapRowsChunks rows = .ok out) :
    List.Forall₂ (fun r c => ChunkMapper.from_row r = .ok c) rows out := by
  induction rows generalizing out with
  | nil =>
    simp only [mapRowsChunks] at h
    cases h
    exact List.Forall₂.nil
  | cons r rs ih =>
    cases hfr : ChunkMapper.from_row r with
    | error e => simp only [mapRowsChunks, hfr] at h; cases h
    | ok c =>
      cases hrec : mapRowsChunks rs with
      | error e => simp only [mapRowsChunks, hfr, hrec] at h; cases h
      | ok rest =>
        simp only [mapRowsChunks, hfr, hrec] at h
        cases h
        exact List.Forall₂.cons hfr (ih hrec)

/-- Two lists of chunk rows that are permutations of each other, both sorted
by position, with pairwise-distinct positions, are equal. -/
theorem sorted_perm_posNe_eq {l₁ l₂ : List ChunkRow} (hperm : l₁.Perm l₂)
    (hs₁ : l₁.Pairwise posLE) (hs₂ : l₂.Pairwise posLE)
    (hne : l₁.Pairwise (fun a b => a.position ≠ b.position)) : l₁ = l₂ := by
  haveI : IsAntisymm ChunkRow (fun a b => a.position < b.position ∨ a = b) :=
    ⟨fun a b hab hba => by
      rcases hab with hab | rfl
      · rcases hba with hba | rfl
        · exact absurd hba (lt_asymm hab)
        · rfl
      · rfl⟩
  have hsymm : Symmetric (fun a b : ChunkRow => a.position ≠ b.position) :=
    fun _ _ h => Ne.symm h
  have hne₂ : l₂.Pairwise (fun a b => a.position ≠ b.position) :=
    (hperm.pairwise_iff (fun {a b} h => hsymm h)).mp hne
  have h₁ : l₁.Pairwise (fun a b : ChunkRow => a.position < b.position ∨ a = b) :=
    (hs₁.and hne).imp (fun h => Or.inl (lt_of_le_of_ne h.1 h.2))
  have h₂ : l₂.Pairwise (fun a b : ChunkRow => a.position < b.position ∨ a = b) :=
    (hs₂.and hne₂).imp (fun h => Or.inl (lt_of_le_of_ne h.1 h.2))
  exact List.eq_of_perm_of_sorted hperm h₁ h₂

/-- A document with no chunk rows yields the empty sequence. -/
theorem get_by_document_id_of_no_rows {db : DB} {document_id : String}
    (h : ∀ r ∈ db.chunks, r.document_id ≠ document_id) :
    ChunkRepository.get_by_document_id db document_id = .ok [] := by
  unfold ChunkRepository.get_by_document_id
  have hnil : db.chunks.filter (fun r => decide (r.document_id = document_id)) = [] := by
    refine List.filter_eq_nil_iff.mpr ?_
    intro a ha
    simpa using h a ha
  rw [hnil]
  rfl

/-! ## C1 — mapper round-trip -/

set_option maxRecDepth 8000 in
/-- **C1, counterexample.** The round-trip `from_row(to_row(c)) == c` fails
on a valid chunk whose embedding holds the `float64` value `1 + 3·2⁻²⁵`:
`to_row` narrows it to the `float32` value `1 + 2⁻²³`, so the rebuilt chunk
differs from the original. -/
theorem chunk_round_trip_counterexample :
    cexChunk.Valid ∧ ChunkMapper.from_row (ChunkMapper.to_row cexChunk) ≠ .ok cexChunk := by
  constructor
  · decide
  · exact of_decide_eq_true (by with_unfolding_all rfl)

/-- **C1 (amended).** The document round-trip is the identity, and the chunk
round-trip preserves every field except the embedding values, which come back
narrowed to `float32`; it is the identity exactly on chunks whose embedding
values are `float32`-fixed points. -/
theorem mappers_round_trip_f32 :
    (∀ d : Document, DocumentMapper.from_row (DocumentMapper.to_row d) = d)
    ∧ (∀ c : Chunk, c.Valid →
        ChunkMapper.from_row (ChunkMapper.to_row c) =
          .ok { c with
            embedding := { c.embedding with values := c.embedding.values.map f32round } }
        ∧ ((∀ v ∈ c.embedding.values, f32round v = v) →
            ChunkMapper.from_row (ChunkMapper.to_row c) = .ok c)) := by
  constructor
  · intro d; rfl
  · intro c hc
    obtain ⟨hct, hpos, htok, hdims, hname, hlen⟩ := hc
    have hE : mkEmbeddingVector (c.embedding.values.map f32round) c.embedding.dimensions
        c.embedding.model_name =
        .ok ⟨c.embedding.values.map f32round, c.embedding.dimensions,
          c.embedding.model_name⟩ := by
      unfold mkEmbeddingVector
      rw [if_pos hdims, if_neg hname, if_pos (by simpa using hlen)]
    have hmain : ChunkMapper.from_row (ChunkMapper.to_row c) =
        .ok { c with
          embedding := { c.embedding with values := c.embedding.values.map f32round } } := by
      unfold ChunkMapper.from_row ChunkMapper.to_row
      simp only [hE]
      unfold mkChunk
      rw [if_neg hct, if_neg (not_lt.mpr hpos), if_neg (not_le.mpr htok)]
    refine ⟨hmain, fun hfix => ?_⟩
    have hmap : c.embedding.values.map f32round = c.embedding.values :=
      (List.map_congr_left (fun v hv => hfix v hv)).trans (List.map_id _)
    rw [hmain, hmap]

set_option maxRecDepth 8000 in
/-- **C1, witness.** The amended round-trip at a concrete valid chunk with a
`float32`-exact embedding. -/
theorem mappers_round_trip_f32_witness :
    ChunkMapper.from_row (ChunkMapper.to_row sampleChunk) = .ok sampleChunk :=
  (mappers_round_trip_f32.2 sampleChunk (by decide)).2 (by decide)

/-! ## C7 — dimension-mismatch rejection -/

/-- **C7.** `ChunkMapper.from_row` rejects a row whose stored
`embedding_dimensions` differs from the number of stored embedding values,
failing with exactly the failure direct `EmbeddingVector` construction
raises; with a supported dimensionality and a non-empty model name that
failure is the dimension mismatch. -/
theorem from_row_dimension_mismatch (row : ChunkRow)
    (h : (row.embedding.length : ℤ) ≠ row.embedding_dimensions) :
    ∃ e, ChunkMapper.from_row row = .error e
      ∧ mkEmbeddingVector row.embedding row.embedding_dimensions row.embedding_model_name
          = .error e
      ∧ ((row.embedding_dimensions = 384 ∨ row.embedding_dimensions = 768 ∨
            row.embedding_dimensions = 1536) →
          row.embedding_model_name ≠ "" →
          e = .dimensionMismatch row.embedding_dimensions row.embedding.length) := by
  by_cases hd : row.embedding_dimensions = 384 ∨ row.embedding_dimensions = 768 ∨
      row.embedding_dimensions = 1536
  · by_cases hn : row.embedding_model_name = ""
    · have hmk : mkEmbeddingVector row.embedding row.embedding_dimensions
          row.embedding_model_name = .error .emptyModelName := by
        unfold mkEmbeddingVector
        rw [if_pos hd, if_pos hn]
      refine ⟨.emptyModelName, ?_, hmk, fun _ hne => absurd hn hne⟩
      unfold ChunkMapper.from_row
      simp only [hmk]
    · have hmk : mkEmbeddingVector row.embedding row.embedding_dimensions
          row.embedding_model_name =
          .error (.dimensionMismatch row.embedding_dimensions row.embedding.length) := by
        unfold mkEmbeddingVector
        rw [if_pos hd, if_neg hn, if_neg h]
      refine ⟨_, ?_, hmk, fun _ _ => rfl⟩
      unfold ChunkMapper.from_row
      simp only [hmk]
  · have hmk : mkEmbeddingVector row.embedding row.embedding_dimensions
        row.embedding_model_name = .error (.invalidDimensions row.embedding_dimensions) := by
      unfold mkEmbeddingVector
      rw [if_neg hd]
    refine ⟨_, ?_, hmk, fun hlit _ => absurd hlit hd⟩
    unfold ChunkMapper.from_row
    simp only [hmk]

/-- A row claiming 768 dimensions over a 2-value embedding. -/
def mismatchRow : ChunkRow := ⟨"cx", "doc-1", "code", "t", [0, 0], 768, "m", 0, 1, [], 0⟩

/-- **C7, witness.** The mismatching row is rejected with the
dimension-mismatch failure. -/
theorem from_row_dimension_mismatch_witness :
    ChunkMapper.from_row mismatchRow = .error (.dimensionMismatch 768 2) := by
  obtain ⟨e, h1, _, h3⟩ := from_row_dimension_mismatch mismatchRow (by decide)
  rw [h3 (by decide) (by decide)] at h1
  exact h1

/-! ## C8 — pool lifecycle gating -/

/-- **C8.** Acquiring a scoped connection before `open()` fails with the
not-open condition, and after `close()` every subsequent acquisition fails
with the same condition. -/
theorem pool_connection_requires_open :
    (∀ config, (ConnectionPool.init config).connection = .error .notOpen)
    ∧ (∀ p : ConnectionPool, p.closePool.connection = .error .notOpen) :=
  ⟨fun _ => rfl, fun _ => rfl⟩

/-! ## C9 — double open -/

/-- **C9, counterexample.** Calling `open()` on an already-open pool does not
fail fast: from the freshly opened state (inner pool 0), a second `open()`
succeeds and silently installs a new inner pool. -/
theorem open_twice_counterexample :
    (ConnectionPool.init defaultConfig).openPool = .ok ⟨defaultConfig, 1, some 0⟩
    ∧ (ConnectionPool.mk defaultConfig 1 (some 0)).pool = some 0
    ∧ (ConnectionPool.mk defaultConfig 1 (some 0)).openPool =
        .ok ⟨defaultConfig, 2, some 1⟩ :=
  ⟨rfl, rfl, rfl⟩

/-- **C9 (amended).** `open()` never fails: from any state it succeeds and
replaces `_pool` with a freshly created inner pool, which in any reachable
(well-formed) state is distinct from the previously held one. -/
theorem open_always_replaces (p : ConnectionPool) :
    p.openPool = .ok ⟨p.config, p.counter + 1, some p.counter⟩
    ∧ (p.WF → p.pool ≠ some p.counter) := by
  refine ⟨rfl, fun hwf hcontra => ?_⟩
  exact absurd (hwf p.counter hcontra) (lt_irrefl p.counter)

/-- **C9, witness.** The amended claim at the once-opened state. -/
theorem open_always_replaces_witness :
    (ConnectionPool.mk defaultConfig 1 (some 0)).pool ≠ some 1 :=
  (open_always_replaces ⟨defaultConfig, 1, some 0⟩).2
    (fun h hh => by injection hh with hh; subst hh; decide)

/-! ## C2 — duplicate-document condition -/

/-- **C2, counterexample.** Inserting a document that collides with a stored
row only on the primary key `id` — not on `(domain_id, content_hash)` — still
raises the duplicate-document condition, because `create` catches every
`UniqueViolation`; the claim requires a condition distinct from
duplicate-document there. -/
theorem create_pk_collision_counterexample :
    DocumentRepository.create ⟨[docRowA], []⟩ docB =
      .error (.storage (.duplicateDocument "d2" "h2"))
    ∧ docRowA.id = docB.id
    ∧ ¬(docRowA.domain_id = docB.domain_id ∧ docRowA.content_hash = docB.content_hash) := by
  refine ⟨by decide, by decide, by decide⟩

/-- **C2 (amended).** `create` raises the duplicate-document condition,
carrying the document's own `domain_id` and `content_hash`, exactly when the
insert violates any uniqueness constraint — the `(domain_id, content_hash)`
pair or the primary key `id` being already present — and otherwise appends
the new row, never replacing an existing one. -/
theorem create_duplicate_iff (db : DB) (document : Document) :
    (DocumentRepository.create db document =
        .error (.storage (.duplicateDocument document.domain_id document.content_hash))
      ↔ ∃ r ∈ db.documents, r.id = document.id ∨
          (r.domain_id = document.domain_id ∧ r.content_hash = document.content_hash))
    ∧ ((¬∃ r ∈ db.documents, r.id = document.id ∨
          (r.domain_id = document.domain_id ∧ r.content_hash = document.content_hash)) →
        DocumentRepository.create db document =
          .ok ({ db with documents := db.documents ++ [DocumentMapper.to_row document] },
            document)) := by
  constructor
  · constructor
    · intro h
      by_cases hc : ∃ r ∈ db.documents, r.id = document.id ∨
          (r.domain_id = document.domain_id ∧ r.content_hash = document.content_hash)
      · exact hc
      · exfalso
        have hIns : pgInsertDocument db.documents (DocumentMapper.to_row document) =
            .ok (db.documents ++ [DocumentMapper.to_row document]) := by
          simp only [pgInsertDocument, DocumentMapper.to_row]
          rw [if_neg hc]
        unfold DocumentRepository.create at h
        simp only [hIns] at h
        cases h
    · intro hc
      have hIns : pgInsertDocument db.documents (DocumentMapper.to_row document) =
          .error .uniqueViolation := by
        simp only [pgInsertDocument, DocumentMapper.to_row]
        rw [if_pos hc]
      unfold DocumentRepository.create
      simp only [hIns]
  · intro hc
    have hIns : pgInsertDocument db.documents (DocumentMapper.to_row document) =
        .ok (db.documents ++ [DocumentMapper.to_row document]) := by
      simp only [pgInsertDocument, DocumentMapper.to_row]
      rw [if_neg hc]
    unfold DocumentRepository.create
    simp only [hIns]
    rfl

/-- **C2, witness.** A conflict-free insert appends the document's row. -/
theorem create_duplicate_iff_witness :
    DocumentRepository.create (DB.mk [] []) docB =
      .ok (DB.mk [DocumentMapper.to_row docB] [], docB) := by
  have h := (create_duplicate_iff ⟨[], []⟩ docB).2 (by decide)
  simpa using h

/-! ## C5 — cascade delete -/

/-- **C5.** When `delete` succeeds, every chunk of the deleted document is
removed in the same deletion, so `get_by_document_id` afterwards returns the
empty sequence; when the id is not stored, `delete` fails with the not-found
condition. -/
theorem delete_cascades_chunks (db : DB) (document_id : String) :
    (∀ db', DocumentRepository.delete db document_id = .ok db' →
      (∀ c ∈ db'.chunks, c.document_id ≠ document_id)
      ∧ ChunkRepository.get_by_document_id db' document_id = .ok [])
    ∧ ((¬∃ r ∈ db.documents, r.id = document_id) →
        DocumentRepository.delete db document_id =
          .error (.storage (.documentNotFound document_id))) := by
  constructor
  · intro db' h
    unfold DocumentRepository.delete at h
    split_ifs at h with hex
    · cases h
      constructor
      · intro c hc
        have := List.of_mem_filter hc
        simpa using this
      · apply get_by_document_id_of_no_rows
        intro r hr
        have := List.of_mem_filter hr
        simpa using this
  · intro hnone
    unfold DocumentRepository.delete
    rw [if_neg hnone]

/-- **C5, witness.** Deleting the only document empties its chunks. -/
theorem delete_cascades_chunks_witness :
    ChunkRepository.get_by_document_id (DB.mk [] []) "doc-1" = .ok [] :=
  ((delete_cascades_chunks sampleDB "doc-1").1 ⟨[], []⟩ (by decide)).2

/-! ## C10 — bulk insert -/

/-- **C10.** A fully successful `bulk_create` returns as many chunks as it
was given, the i-th returned chunk being the persisted (row round-tripped)
image of the i-th input chunk, and appends their rows to the store in input
order; the empty input returns the empty list with the store untouched. -/
theorem bulk_create_ordered_complete :
    (∀ db : DB, ChunkRepository.bulk_create db [] = .ok (db, []))
    ∧ (∀ db chunks db' out, ChunkRepository.bulk_create db chunks = .ok (db', out) →
        out.length = chunks.length
        ∧ List.Forall₂ (fun c o => ChunkMapper.from_row (ChunkMapper.to_row c) = .ok o)
            chunks out
        ∧ db'.chunks = db.chunks ++ chunks.map ChunkMapper.to_row
        ∧ db'.documents = db.documents) := by
  have hloop : ∀ (chunks : List Chunk) (db db' : DB) (out : List Chunk),
      bulkLoop db chunks = .ok (db', out) →
      out.length = chunks.length
      ∧ List.Forall₂ (fun c o => ChunkMapper.from_row (ChunkMapper.to_row c) = .ok o)
          chunks out
      ∧ db'.chunks = db.chunks ++ chunks.map ChunkMapper.to_row
      ∧ db'.documents = db.documents := by
    intro chunks
    induction chunks with
    | nil =>
      intro db db' out h
      simp only [bulkLoop] at h
      injection h with h'
      injection h' with h1 h2
      subst h1
      subst h2
      exact ⟨rfl, List.Forall₂.nil, by simp, rfl⟩
    | cons c rest ih =>
      intro db db' out h
      cases hIns : pgInsertChunk db (ChunkMapper.to_row c) with
      | error e => simp only [bulkLoop, hIns] at h; cases h
      | ok db₁ =>
        cases hfr : ChunkMapper.from_row (ChunkMapper.to_row c) with
        | error e => simp only [bulkLoop, hIns, hfr] at h; cases h
        | ok inserted =>
          cases hrec : bulkLoop db₁ rest with
          | error e => simp only [bulkLoop, hIns, hfr, hrec] at h; cases h
          | ok pr =>
            obtain ⟨dbf, outs⟩ := pr
            simp only [bulkLoop, hIns, hfr, hrec] at h
            injection h with h'
            injection h' with h1 h2
            subst h1
            subst h2
            obtain ⟨hlen, hF, hchunks, hdocs⟩ := ih db₁ dbf outs hrec
            have hdb₁ := pgInsertChunk_ok hIns
            subst hdb₁
            refine ⟨by simp [hlen], List.Forall₂.cons hfr hF, ?_, by simpa using hdocs⟩
            simpa [List.append_assoc] using hchunks
  constructor
  · intro db
    unfold ChunkRepository.bulk_create
    rw [if_pos rfl]
  · intro db chunks db' out h
    unfold ChunkRepository.bulk_create at h
    split_ifs at h with hemp
    · subst hemp
      injection h with h'
      injection h' with h1 h2
      subst h1
      subst h2
      exact ⟨rfl, List.Forall₂.nil, by simp, rfl⟩
    · exact hloop chunks db db' out h

set_option maxRecDepth 8000 in
/-- **C10, witness.** Bulk-inserting two chunks returns both, in order. -/
theorem bulk_create_ordered_complete_witness :
    ([bulkChunkA, bulkChunkB] : List Chunk).length = 2 ∧
    (DB.mk [docRow1]
        [ChunkMapper.to_row bulkChunkA, ChunkMapper.to_row bulkChunkB]).documents
      = [docRow1] := by
  have h := bulk_create_ordered_complete.2 ⟨[docRow1], []⟩ [bulkChunkA, bulkChunkB]
    ⟨[docRow1], [ChunkMapper.to_row bulkChunkA, ChunkMapper.to_row bulkChunkB]⟩
    [bulkChunkA, bulkChunkB] (by exact of_decide_eq_true (by with_unfolding_all rfl))
  exact ⟨rfl, h.2.2.2⟩

/-! ## C3 — domain scoping of search -/

/-- **C3.** Every chunk returned by `search_similar(A, ...)` has
`domain_id = A`; a chunk stored under any other domain is never returned,
whatever the store's distance function computes. -/
theorem search_similar_domain_scoped (dist : List ℚ → List ℚ → ℚ) (db : DB)
    (domain_id : String) (q : List ℚ) (top_k : ℕ) (min_similarity : ℚ)
    (res : List (Chunk × ℚ))
    (h : ChunkRepository.search_similar dist db domain_id q top_k min_similarity = .ok res) :
    (∀ p ∈ res, p.1.domain_id = domain_id)
    ∧ (∀ other, other ≠ domain_id → ∀ p ∈ res, p.1.domain_id ≠ other) := by
  unfold ChunkRepository.search_similar at h
  have hF := mapRows_ok_forall₂ h
  have hdom : ∀ p ∈ res, p.1.domain_id = domain_id := by
    intro p hp
    obtain ⟨r, hr, hfr, _⟩ := forall₂_mem_right hF p hp
    have hr₂ : r ∈ db.chunks.filter (fun r => decide (r.domain_id = domain_id ∧
        min_similarity ≤ 1 - dist r.embedding (q.map f32round))) :=
      (List.perm_insertionSort _ _).mem_iff.mp (List.mem_of_mem_take hr)
    have hd := of_decide_eq_true (List.mem_filter.mp hr₂).2
    rw [from_row_ok hfr]
    exact hd.1
  exact ⟨hdom, fun other hother p hp => by rw [hdom p hp]; exact Ne.symm hother⟩

set_option maxRecDepth 8000 in
/-- **C3, witness.** A concrete search in domain `code` returns only
`code`-domain chunks. -/
theorem search_similar_domain_scoped_witness :
    ChunkRepository.search_similar distSample sampleDB "code" zeros384 10 0 =
      .ok [(sampleChunk, 1)]
    ∧ sampleChunk.domain_id = "code" := by
  have hs : ChunkRepository.search_similar distSample sampleDB "code" zeros384 10 0 =
      .ok [(sampleChunk, 1)] := of_decide_eq_true (by with_unfolding_all rfl)
  exact ⟨hs, (search_similar_domain_scoped distSample sampleDB "code" zeros384 10 0
    [(sampleChunk, 1)] hs).1 (sampleChunk, 1) (by simp)⟩

/-! ## C4 — ranking, threshold, truncation -/

/-- **C4.** `search_similar` returns at most `top_k` pairs, ordered by
non-increasing similarity; each similarity equals `1 - dist(chunk.embedding,
query)` for the query as sent to the store (`float32`-encoded), and is at
least `min_similarity`. -/
theorem search_similar_ranked_bounded (dist : List ℚ → List ℚ → ℚ) (db : DB)
    (domain_id : String) (q : List ℚ) (top_k : ℕ) (min_similarity : ℚ)
    (res : List (Chunk × ℚ))
    (h : ChunkRepository.search_similar dist db domain_id q top_k min_similarity = .ok res) :
    res.length ≤ top_k
    ∧ res.Pairwise (fun p₁ p₂ => p₂.2 ≤ p₁.2)
    ∧ (∀ p ∈ res, p.2 = 1 - dist p.1.embedding.values (q.map f32round))
    ∧ (∀ p ∈ res, min_similarity ≤ p.2) := by
  unfold ChunkRepository.search_similar at h
  have hF := mapRows_ok_forall₂ h
  refine ⟨?_, ?_, ?_, ?_⟩
  · rw [← List.Forall₂.length_eq hF]
    exact List.length_take_le _ _
  · have hsorted := List.sorted_insertionSort (distLE dist (q.map f32round))
      (db.chunks.filter (fun r => decide (r.domain_id = domain_id ∧
        min_similarity ≤ 1 - dist r.embedding (q.map f32round))))
    have htake := hsorted.sublist (List.take_sublist top_k _)
    exact pairwise_of_forall₂
      (fun r₁ r₂ p₁ p₂ hR₁ hR₂ hP => by
        have hP' : dist r₁.embedding (q.map f32round) ≤ dist r₂.embedding (q.map f32round) :=
          hP
        rw [hR₁.2, hR₂.2]
        exact sub_le_sub_left hP' 1) hF htake
  · intro p hp
    obtain ⟨r, hr, hfr, hsim⟩ := forall₂_mem_right hF p hp
    rw [hsim, from_row_ok hfr]
  · intro p hp
    obtain ⟨r, hr, hfr, hsim⟩ := forall₂_mem_right hF p hp
    have hr₂ : r ∈ db.chunks.filter (fun r => decide (r.domain_id = domain_id ∧
        min_similarity ≤ 1 - dist r.embedding (q.map f32round))) :=
      (List.perm_insertionSort _ _).mem_iff.mp (List.mem_of_mem_take hr)
    have hd := of_decide_eq_true (List.mem_filter.mp hr₂).2
    rw [hsim]
    exact hd.2

set_option maxRecDepth 8000 in
/-- **C4, witness.** A concrete search respects the bound and the
threshold. -/
theorem search_similar_ranked_bounded_witness :
    ([((sampleChunk, 1) : Chunk × ℚ)]).length ≤ 10
    ∧ (∀ p ∈ ([((sampleChunk, 1) : Chunk × ℚ)]), (0 : ℚ) ≤ p.2) := by
  have h := search_similar_ranked_bounded distSample sampleDB "code" zeros384 10 0
    [(sampleChunk, 1)] (of_decide_eq_true (by with_unfolding_all rfl))
  exact ⟨h.1, h.2.2.2⟩

/-! ## C6 — position-ordered retrieval -/

/-- **C6.** `get_by_document_id` returns exactly the chunks of the document,
ordered by position ascending, the empty sequence when there are none, and —
whenever the document's chunk positions are pairwise distinct — the same
sequence for any insertion order of the table. -/
theorem get_by_document_id_position_order (db : DB) (document_id : String)
    (cs : List Chunk)
    (h : ChunkRepository.get_by_document_id db document_id = .ok cs) :
    (∀ c ∈ cs, c.document_id = document_id)
    ∧ cs.Pairwise (fun c₁ c₂ => c₁.position ≤ c₂.position)
    ∧ (∃ rows, rows.Perm (db.chunks.filter (fun r => decide (r.document_id = document_id)))
        ∧ List.Forall₂ (fun r c => ChunkMapper.from_row r = .ok c) rows cs)
    ∧ ((∀ r ∈ db.chunks, r.document_id ≠ document_id) → cs = [])
    ∧ (∀ db₂ : DB, db₂.chunks.Perm db.chunks →
        (db.chunks.filter (fun r => decide (r.document_id = document_id))).Pairwise
          (fun r₁ r₂ => r₁.position ≠ r₂.position) →
        ChunkRepository.get_by_document_id db₂ document_id = .ok cs) := by
  unfold ChunkRepository.get_by_document_id at h
  have hF := mapRowsChunks_ok_forall₂ h
  refine ⟨?_, ?_, ?_, ?_, ?_⟩
  · intro c hc
    obtain ⟨r, hr, hfr⟩ := forall₂_mem_right hF c hc
    have hr₂ : r ∈ db.chunks.filter (fun r => decide (r.document_id = document_id)) :=
      (List.perm_insertionSort _ _).mem_iff.mp hr
    have hd := of_decide_eq_true (List.mem_filter.mp hr₂).2
    rw [from_row_ok hfr]
    exact hd
  · have hsorted := List.sorted_insertionSort posLE
      (db.chunks.filter (fun r => decide (r.document_id = document_id)))
    exact pairwise_of_forall₂
      (fun r₁ r₂ c₁ c₂ h₁ h₂ hP => by
        have hP' : r₁.position ≤ r₂.position := hP
        rw [from_row_ok h₁, from_row_ok h₂]
        exact hP') hF hsorted
  · exact ⟨_, List.perm_insertionSort _ _, hF⟩
  · intro hnone
    have hfil : db.chunks.filter (fun r => decide (r.document_id = document_id)) = [] :=
      List.filter_eq_nil_iff.mpr (fun a ha => by simpa using hnone a ha)
    rw [hfil] at h
    simp only [List.insertionSort, mapRowsChunks] at h
    cases h
    rfl
  · intro db₂ hperm hne
    unfold ChunkRepository.get_by_document_id
    have hpf := hperm.filter (fun r => decide (r.document_id = document_id))
    have hchain : (List.insertionSort posLE
        (db₂.chunks.filter (fun r => decide (r.document_id = document_id)))).Perm
        (db.chunks.filter (fun r => decide (r.document_id = document_id))) :=
      (List.perm_insertionSort _ _).trans hpf
    have hne₂ : (List.insertionSort posLE
        (db₂.chunks.filter (fun r => decide (r.document_id = document_id)))).Pairwise
        (fun r₁ r₂ => r₁.position ≠ r₂.position) :=
      (hchain.pairwise_iff (fun {a b} hh => Ne.symm hh)).mpr hne
    have heq : List.insertionSort posLE
        (db₂.chunks.filter (fun r => decide (r.document_id = document_id)))
        = List.insertionSort posLE
          (db.chunks.filter (fun r => decide (r.document_id = document_id))) := by
      apply sorted_perm_posNe_eq
      · exact hchain.trans (List.perm_insertionSort _ _).symm
      · exact List.sorted_insertionSort _ _
      · exact List.sorted_insertionSort _ _
      · exact hne₂
    rw [heq]
    exact h

set_option maxRecDepth 8000 in
/-- **C6, witness.** Chunks inserted in position order [1, 0, 2] come back
ordered [0, 1, 2]. -/
theorem get_by_document_id_position_order_witness :
    ([chunkPos0, chunkPos1, chunkPos2] : List Chunk).Pairwise
      (fun c₁ c₂ => c₁.position ≤ c₂.position) :=
  (get_by_document_id_position_order dbOutOfOrder "doc-1" [chunkPos0, chunkPos1, chunkPos2]
    (of_decide_eq_true (by with_unfolding_all rfl))).2.1

end Nornweave
